import Mathlib

/-!
Verification of the crawl-orchestrator core of the `deepseek-ai-web-crawler`
repository (`src/crawlers/base_crawler.py`, class `BaseCrawler`), as a shallow
embedding.  Python dictionaries (extracted items, CSV rows) are modelled as
association lists from field name to string value; Python sets are modelled as
lists queried with `contains`; the file system is passed explicitly; the
`random` draws of the source are explicit parameters.
-/

namespace Crawler

/-- An extracted item / CSV row: a Python `dict` of string fields, modelled
as an association list. -/
abbrev Rec := List (String × String)

/-- Python `k in item` — key membership for a dict. -/
def hasKey (item : Rec) (k : String) : Bool :=
  (item.lookup k).isSome

/-- Python `item.get(k, '')`. -/
def getD (item : Rec) (k : String) : String :=
  (item.lookup k).getD ""

/-- Python's default `str.strip()` whitespace: space, tab, newline, carriage
return, vertical tab, form feed. -/
def isSpaceChar (c : Char) : Bool :=
  (c == ' ') || (c == '\t') || (c == '\n') || (c == '\r') ||
    (c == '\x0b') || (c == '\x0c')

/-- Python `str.lower()` on one character, modelled for the ASCII range the
crawler's key fields use. -/
def lowerChar (c : Char) : Char :=
  if 'A' ≤ c && c ≤ 'Z' then Char.ofNat (c.toNat + 32) else c

/-- Python `s.lower().strip()` — the normalization used for duplicate keys
(`base_crawler.py:163` and `:262`): case-fold, then drop leading and trailing
whitespace (the trailing side via reverse). -/
def normalize (s : String) : String :=
  String.mk ((((s.data.map lowerChar).dropWhile isSpaceChar).reverse.dropWhile
    isSpaceChar).reverse)

/-- The normalized key tuple of an item, from
`tuple(item.get(k, '').lower().strip() for k in self.key_fields)`
(`base_crawler.py:262`; `:163` reads the same fields out of a loaded CSV row). -/
def fingerprint (keyFields : List String) (item : Rec) : List String :=
  keyFields.map fun k => normalize (getD item k)

/-- `BaseCrawler.is_duplicate` (`base_crawler.py:249-263`): with no key fields
no duplication check is performed, otherwise the normalized key tuple is
looked up in `seen_items`. -/
def is_duplicate (keyFields : List String) (seen : List (List String))
    (item : Rec) : Bool :=
  if keyFields.isEmpty then false
  else seen.contains (fingerprint keyFields item)

/-- `BaseCrawler.is_complete` (`base_crawler.py:265-282`): an item is complete
when no configured required key is absent from the dict.  The source tests key
membership (`key not in item`) only; it does not inspect the values. -/
def is_complete (requiredKeys : List String) (item : Rec) : Bool :=
  if requiredKeys.isEmpty then true
  else (requiredKeys.filter (fun k => !(hasKey item k))).isEmpty

/-- `BaseCrawler._append_item_to_csv` (`base_crawler.py:328-356`): if the file
is missing, write the single item; otherwise append the item unless some
existing row has the same normalized key tuple. -/
def appendItemToCsv (keyFields : List String) (file : Option (List Rec))
    (item : Rec) : Option (List Rec) :=
  match file with
  | none => some [item]
  | some rows =>
    if rows.any (fun row => fingerprint keyFields row = fingerprint keyFields item) then
      some rows
    else
      some (rows ++ [item])

/-- The completeness-guarded write path of the concrete crawlers
(`angel_travel_crawlers.py:135-139`, and the same `if self.is_complete(...)`
guard in front of `_append_item_to_csv` / `_save_data_json` at
`dari_tour_excursions_crawler.py:293-316` and
`dari_tour_excursions_detailed_crawler.py:125-126`): an item reaches the sink
only when `is_complete` accepts it. -/
def persistIfComplete (requiredKeys keyFields : List String)
    (file : Option (List Rec)) (item : Rec) : Option (List Rec) :=
  if is_complete requiredKeys item then appendItemToCsv keyFields file item
  else file

end Crawler

namespace Crawler

/-! ### Claims C2 and C10: completeness and duplicate classification -/

/-- C2, counterexample.  The claim says an item is classified complete only if
every required field is present *and non-empty*, and that an item whose
required field is present but empty is never written to the tabular sink.
In the code `is_complete` only tests key membership, so the item
`{"name": ""}` with required field `name` is classified complete and the
guarded write path appends it to the sink. -/
theorem complete_empty_field_counterexample :
    is_complete ["name"] [("name", "")] = true ∧
    persistIfComplete ["name"] ["name"] none [("name", "")] =
      some [[("name", "")]] := by
  constructor <;> rfl

/-- C2, amended: an item is classified complete iff every required field is
*present as a key* (a present-but-empty value still counts as complete), and
an item missing one required key is never written by the completeness-guarded
write path. -/
theorem required_fields_guard (requiredKeys keyFields : List String)
    (file : Option (List Rec)) (item : Rec) (k : String)
    (hk : k ∈ requiredKeys) (hmiss : hasKey item k = false) :
    is_complete requiredKeys item = false ∧
    persistIfComplete requiredKeys keyFields file item = file := by
  have hne : requiredKeys.isEmpty = false := by
    cases requiredKeys with
    | nil => cases hk
    | cons a l => rfl
  have hmem : k ∈ requiredKeys.filter (fun k => !(hasKey item k)) := by
    rw [List.mem_filter]
    exact ⟨hk, by rw [hmiss]; rfl⟩
  have hfilter : (requiredKeys.filter (fun k => !(hasKey item k))).isEmpty = false := by
    cases hfe : (requiredKeys.filter (fun k => !(hasKey item k))) with
    | nil => rw [hfe] at hmem; cases hmem
    | cons a l => rfl
  have hic : is_complete requiredKeys item = false := by
    unfold is_complete
    rw [hne]
    simpa using hfilter
  refine ⟨hic, ?_⟩
  unfold persistIfComplete
  rw [hic]
  simp

/-- C2, witness for `required_fields_guard` at a concrete input: required
fields `["name", "price"]`, item `{"name": "x"}` missing `price`. -/
theorem required_fields_guard_witness :
    is_complete ["name", "price"] [("name", "x")] = false ∧
    persistIfComplete ["name", "price"] ["name"] (some [])
      [("name", "x")] = some [] :=
  required_fields_guard ["name", "price"] ["name"] (some []) [("name", "x")]
    "price" (by decide) (by decide)

/-- C10: with an empty `key_fields` list, `is_duplicate` returns `False` for
every item, whatever the contents of `seen_items` — even when `seen_items`
contains the empty tuple that the normalization of an empty field list would
produce. -/
theorem no_key_fields_no_dup (seen : List (List String)) (item : Rec) :
    is_duplicate [] seen item = false := by
  unfold is_duplicate
  rfl

/-! ### Retry controller (`BaseCrawler._run_crawler_with_retries`,
`base_crawler.py:110-147`) -/

/-- The backoff delay of `base_crawler.py:141`:
`retry_delay = 2 ** attempt + random.uniform(0, 1)`, with the jitter draw `j`
made explicit.  The source applies no maximum-delay cap. -/
def retryDelay (attempt : Nat) (j : ℚ) : ℚ :=
  2 ^ attempt + j

/-- One call to `crawler.arun`: it either returns a result (which may or may
not carry content, `result.html or result.extracted_content`) or raises. -/
inductive ArunOutcome
  | ok (hasContent : Bool)
  | exn
deriving DecidableEq

/-- How one invocation of `_run_crawler_with_retries` ends. -/
inductive RetryFinal
  | returned
  | raised
  | cancelled
  | noneReturned
deriving DecidableEq

/-- Observable outcome of `_run_crawler_with_retries`: how many times
`crawler.arun` was invoked, the backoff delays slept between attempts, whether
the crawler was re-created after persistent failure, and how the call ended. -/
structure RetryTrace where
  arunCalls : Nat
  delays : List ℚ
  sessionReset : Bool
  final : RetryFinal
deriving DecidableEq

/-- The `for attempt in range(self.max_retries)` loop of
`base_crawler.py:125-147`.  `fuel` bounds the remaining iterations and is
instantiated with `m` at the top-level call, so it runs out exactly when
`attempt` reaches `m`, which is also the loop's own exit (returning `None`).
Per iteration: a set `stop_event` raises `CancelledError`; otherwise `arun`
runs — a result with content is returned; an empty result retries immediately
(no sleep) unless this is the last attempt, where the raised exception is
caught by the function's own `except` and, being the last attempt, leads to
re-creating the crawler and re-raising; a raised exception before the last
attempt sleeps `2 ** attempt + uniform(0, 1)` and retries. -/
def retryAux (m : Nat) (o : Nat → ArunOutcome) (j : Nat → ℚ)
    (stop : Nat → Bool) : Nat → Nat → RetryTrace
  | 0, _ => ⟨0, [], false, .noneReturned⟩
  | fuel + 1, attempt =>
    if attempt < m then
      if stop attempt then ⟨0, [], false, .cancelled⟩
      else
        match o attempt with
        | .ok true => ⟨1, [], false, .returned⟩
        | .ok false =>
          if attempt = m - 1 then ⟨1, [], true, .raised⟩
          else
            let t := retryAux m o j stop fuel (attempt + 1)
            ⟨1 + t.arunCalls, t.delays, t.sessionReset, t.final⟩
        | .exn =>
          if attempt < m - 1 then
            let t := retryAux m o j stop fuel (attempt + 1)
            ⟨1 + t.arunCalls, retryDelay attempt (j attempt) :: t.delays,
              t.sessionReset, t.final⟩
          else ⟨1, [], true, .raised⟩
    else ⟨0, [], false, .noneReturned⟩

/-- `_run_crawler_with_retries` with budget `m` (`self.max_retries`). -/
def retryRun (m : Nat) (o : Nat → ArunOutcome) (j : Nat → ℚ)
    (stop : Nat → Bool) : RetryTrace :=
  retryAux m o j stop m 0

/-- The extractor behaviour of the C4 scenario: transient failures on the
first two attempts, success with content on the third. -/
def twoFailOutcomes : Nat → ArunOutcome :=
  fun n => if n ≤ 1 then .exn else .ok true

/-- A stop event that is never set. -/
def noStop : Nat → Bool := fun _ => false

end Crawler

namespace Crawler

/-! ### Claims C3 and C4: backoff and retry budget -/

theorem retryAux_calls_le (m : Nat) (o : Nat → ArunOutcome) (j : Nat → ℚ)
    (stop : Nat → Bool) :
    ∀ fuel attempt, (retryAux m o j stop fuel attempt).arunCalls ≤ fuel := by
  intro fuel
  induction fuel with
  | zero => intro attempt; rfl
  | succ n ih =>
    intro attempt
    have hrec := ih (attempt + 1)
    unfold retryAux
    split
    · split
      · simp
      · split
        · simp
        · split
          · simp
          · simp only
            omega
        · split
          · simp only
            omega
          · simp
    · simp

/-- C3, counterexample to the "capped at a maximum" part of the claim: the
delay computed at `base_crawler.py:141` admits no maximum-delay cap — for
every candidate cap `M` some attempt's delay (even with zero jitter) exceeds
it. -/
theorem backoff_uncapped_counterexample :
    ¬ ∃ M : ℚ, ∀ (n : Nat) (j : ℚ), 0 ≤ j → j ≤ 1 → retryDelay n j ≤ M := by
  rintro ⟨M, hM⟩
  obtain ⟨n, hn⟩ := pow_unbounded_of_one_lt (y := (2 : ℚ)) M (by norm_num)
  have h := hM n 0 le_rfl zero_le_one
  unfold retryDelay at h
  simp only [add_zero] at h
  exact absurd h (not_le.mpr hn)

/-- C3, amended: the delay is `2 ^ attempt + jitter` with no maximum-delay
cap, and for a fixed jitter draw it is non-decreasing in the attempt number,
for all attempts. -/
theorem backoff_monotone (n : Nat) (j : ℚ) :
    retryDelay n j ≤ retryDelay (n + 1) j := by
  unfold retryDelay
  have h : (2 : ℚ) ^ n ≤ 2 ^ (n + 1) :=
    pow_le_pow_right₀ one_le_two (Nat.le_succ n)
  linarith

/-- C4: (i) the retry loop calls `crawler.arun` at most `max_retries` times,
for every budget, extractor behaviour, jitter and stop schedule; (ii) in the
scenario of two transient failures followed by a success with budget 3, the
result is returned, the backoff delay is computed exactly twice, and — for
jitter draws in the sampled range `[0, 1]` — the second delay is at least the
first. -/
theorem retry_budget_scenario (j : Nat → ℚ) (h0 : j 0 ≤ 1) (h1 : 0 ≤ j 1) :
    (∀ (m : Nat) (o : Nat → ArunOutcome) (j' : Nat → ℚ) (stop : Nat → Bool),
        (retryRun m o j' stop).arunCalls ≤ m) ∧
    (retryRun 3 twoFailOutcomes j noStop).final = .returned ∧
    (retryRun 3 twoFailOutcomes j noStop).delays =
      [retryDelay 0 (j 0), retryDelay 1 (j 1)] ∧
    retryDelay 0 (j 0) ≤ retryDelay 1 (j 1) := by
  refine ⟨fun m o j' stop => retryAux_calls_le m o j' stop m 0, ?_, ?_, ?_⟩
  · rfl
  · rfl
  · unfold retryDelay
    norm_num
    linarith

/-- C4, witness: the theorem applied at the constant jitter draw `1/2`. -/
theorem retry_budget_scenario_witness :
    (∀ (m : Nat) (o : Nat → ArunOutcome) (j' : Nat → ℚ) (stop : Nat → Bool),
        (retryRun m o j' stop).arunCalls ≤ m) ∧
    (retryRun 3 twoFailOutcomes (fun _ => 1 / 2) noStop).final = .returned ∧
    (retryRun 3 twoFailOutcomes (fun _ => 1 / 2) noStop).delays =
      [retryDelay 0 (1 / 2), retryDelay 1 (1 / 2)] ∧
    retryDelay 0 (1 / 2) ≤ retryDelay 1 (1 / 2) :=
  retry_budget_scenario (fun _ => 1 / 2) (by norm_num) (by norm_num)

end Crawler

namespace Crawler

/-! ### Tabular-sink merge (`BaseCrawler._save_data_csv`,
`base_crawler.py:284-315`) -/

/-- The raw (un-normalized) key tuple of a row, as compared by pandas
`drop_duplicates(subset=self.key_fields)` at `base_crawler.py:300`: cell
values are compared as loaded, with no case folding or trimming; a missing
field is a null cell (`none`). -/
def rawKey (keyFields : List String) (row : Rec) : List (Option String) :=
  keyFields.map fun k => row.lookup k

/-- pandas `DataFrame.drop_duplicates(subset=keyFields)` with the default
`keep='first'`: keep a row iff its raw key tuple has not occurred earlier;
`seen` accumulates the tuples of the rows kept so far. -/
def dropDupAux (keyFields : List String)
    (seen : List (List (Option String))) : List Rec → List Rec
  | [] => []
  | r :: rs =>
    if rawKey keyFields r ∈ seen then dropDupAux keyFields seen rs
    else r :: dropDupAux keyFields (seen ++ [rawKey keyFields r]) rs

/-- `pd.concat([existing_df, new_df]).drop_duplicates(subset=key_fields)`
applied to an already concatenated row list. -/
def dropDupKeys (keyFields : List String) (rows : List Rec) : List Rec :=
  dropDupAux keyFields [] rows

/-- `BaseCrawler._save_data_csv` (`base_crawler.py:284-315`): with no newly
collected items the file is left untouched; with an existing file the existing
rows and the new rows are concatenated and de-duplicated by the raw key
tuples; with no existing file the new rows are written as-is (no
de-duplication).  The column fill/reorder of lines 304-312 re-shapes columns
to the model's field list and is not modelled: it does not change which rows
are present or their order. -/
def saveDataCsv (keyFields : List String) (allItems : List Rec)
    (file : Option (List Rec)) : Option (List Rec) :=
  if allItems.isEmpty then file
  else
    match file with
    | some existing => some (dropDupKeys keyFields (existing ++ allItems))
    | none => some allItems

theorem dropDupAux_nil (keyFields : List String)
    (seen : List (List (Option String))) :
    dropDupAux keyFields seen [] = [] := rfl

theorem dropDupAux_cons (keyFields : List String)
    (seen : List (List (Option String))) (r : Rec) (rs : List Rec) :
    dropDupAux keyFields seen (r :: rs) =
      if rawKey keyFields r ∈ seen then dropDupAux keyFields seen rs
      else r :: dropDupAux keyFields (seen ++ [rawKey keyFields r]) rs := rfl

theorem dropDupAux_sublist (keyFields : List String) :
    ∀ (rows : List Rec) (seen : List (List (Option String))),
      (dropDupAux keyFields seen rows).Sublist rows := by
  intro rows
  induction rows with
  | nil => intro seen; exact List.Sublist.refl []
  | cons r rs ih =>
    intro seen
    rw [dropDupAux_cons]
    by_cases hc : rawKey keyFields r ∈ seen
    · rw [if_pos hc]; exact (ih seen).cons r
    · rw [if_neg hc]; exact (ih (seen ++ [rawKey keyFields r])).cons₂ r

theorem mem_dropDupAux_not_seen (keyFields : List String) :
    ∀ (rows : List Rec) (seen : List (List (Option String))) (r : Rec),
      r ∈ dropDupAux keyFields seen rows → rawKey keyFields r ∉ seen := by
  intro rows
  induction rows with
  | nil => intro seen r h; cases h
  | cons x xs ih =>
    intro seen r h
    rw [dropDupAux_cons] at h
    by_cases hc : rawKey keyFields x ∈ seen
    · rw [if_pos hc] at h
      exact ih seen r h
    · rw [if_neg hc] at h
      rcases List.mem_cons.mp h with heq | hmem
      · rw [heq]; exact hc
      · have := ih (seen ++ [rawKey keyFields x]) r hmem
        intro hin
        exact this (List.mem_append_left _ hin)

theorem dropDupAux_pairwise (keyFields : List String) :
    ∀ (rows : List Rec) (seen : List (List (Option String))),
      (dropDupAux keyFields seen rows).Pairwise
        (fun a b => rawKey keyFields a ≠ rawKey keyFields b) := by
  intro rows
  induction rows with
  | nil => intro seen; exact List.Pairwise.nil
  | cons x xs ih =>
    intro seen
    rw [dropDupAux_cons]
    by_cases hc : rawKey keyFields x ∈ seen
    · rw [if_pos hc]; exact ih seen
    · rw [if_neg hc]
      refine List.Pairwise.cons ?_ (ih (seen ++ [rawKey keyFields x]))
      intro b hb heq
      have := mem_dropDupAux_not_seen keyFields xs (seen ++ [rawKey keyFields x]) b hb
      exact this (List.mem_append_right _ (by rw [← heq]; exact List.mem_singleton.mpr rfl))

theorem dropDupAux_covers (keyFields : List String) :
    ∀ (rows : List Rec) (seen : List (List (Option String))) (r : Rec),
      r ∈ rows →
      rawKey keyFields r ∈ seen ∨
        ∃ r' ∈ dropDupAux keyFields seen rows,
          rawKey keyFields r' = rawKey keyFields r := by
  intro rows
  induction rows with
  | nil => intro seen r h; cases h
  | cons x xs ih =>
    intro seen r h
    rw [dropDupAux_cons]
    by_cases hc : rawKey keyFields x ∈ seen
    · rw [if_pos hc]
      rcases List.mem_cons.mp h with heq | hmem
      · exact Or.inl (by rw [heq]; exact hc)
      · exact ih seen r hmem
    · rw [if_neg hc]
      rcases List.mem_cons.mp h with heq | hmem
      · exact Or.inr ⟨x, List.mem_cons_self x _, by rw [heq]⟩
      · rcases ih (seen ++ [rawKey keyFields x]) r hmem with hseen | ⟨r', hr', heq⟩
        · rcases List.mem_append.mp hseen with h1 | h2
          · exact Or.inl h1
          · exact Or.inr ⟨x, List.mem_cons_self x _, by rw [List.mem_singleton.mp h2]⟩
        · exact Or.inr ⟨r', List.mem_cons_of_mem x hr', heq⟩

theorem dropDupAux_append (keyFields : List String) :
    ∀ (xs ys : List Rec) (seen : List (List (Option String))),
      dropDupAux keyFields seen (xs ++ ys) =
        dropDupAux keyFields seen xs ++
          dropDupAux keyFields
            (seen ++ (dropDupAux keyFields seen xs).map (rawKey keyFields)) ys := by
  intro xs
  induction xs with
  | nil => intro ys seen; simp [dropDupAux_nil]
  | cons x xs' ih =>
    intro ys seen
    rw [List.cons_append, dropDupAux_cons, dropDupAux_cons]
    by_cases hc : rawKey keyFields x ∈ seen
    · rw [if_pos hc, if_pos hc]
      exact ih ys seen
    · rw [if_neg hc, if_neg hc]
      rw [ih ys (seen ++ [rawKey keyFields x])]
      rw [List.cons_append]
      have harr : seen ++ [rawKey keyFields x] ++
          (dropDupAux keyFields (seen ++ [rawKey keyFields x]) xs').map (rawKey keyFields) =
          seen ++ (List.map (rawKey keyFields)
            (x :: dropDupAux keyFields (seen ++ [rawKey keyFields x]) xs')) := by
        simp
      rw [harr]

theorem dropDupAux_id_of_nodup (keyFields : List String) :
    ∀ (xs : List Rec) (seen : List (List (Option String))),
      (∀ x ∈ xs, rawKey keyFields x ∉ seen) →
      xs.Pairwise (fun a b => rawKey keyFields a ≠ rawKey keyFields b) →
      dropDupAux keyFields seen xs = xs := by
  intro xs
  induction xs with
  | nil => intro seen _ _; rfl
  | cons x xs' ih =>
    intro seen hseen hpw
    rw [dropDupAux_cons, if_neg (hseen x (List.mem_cons_self x _))]
    congr 1
    refine ih (seen ++ [rawKey keyFields x]) ?_ hpw.of_cons
    intro y hy hc
    rcases List.mem_append.mp hc with h1 | h2
    · exact hseen y (List.mem_cons_of_mem x hy) h1
    · exact (List.rel_of_pairwise_cons hpw hy) (List.mem_singleton.mp h2).symm

theorem dropDupAux_nil_of_all_seen (keyFields : List String) :
    ∀ (ys : List Rec) (seen : List (List (Option String))),
      (∀ y ∈ ys, rawKey keyFields y ∈ seen) →
      dropDupAux keyFields seen ys = [] := by
  intro ys
  induction ys with
  | nil => intro seen _; rfl
  | cons y ys' ih =>
    intro seen hseen
    rw [dropDupAux_cons, if_pos (hseen y (List.mem_cons_self y _))]
    exact ih seen fun z hz => hseen z (List.mem_cons_of_mem y hz)

/-! ### Claim C5: tabular-sink persistence pass -/

/-- C5, counterexample.  The claim says the persistence pass de-duplicates by
the *normalized* key tuple (the Fingerprint).  `_save_data_csv` passes the raw
key fields to `drop_duplicates`, so an existing row with name `"A"` and a new
row with name `"a "` — whose Fingerprints coincide — are both kept, and the
resulting file holds two rows with the same Fingerprint. -/
theorem save_csv_raw_dedup_counterexample :
    saveDataCsv ["name"] [[("name", "a ")]] (some [[("name", "A")]]) =
      some [[("name", "A")], [("name", "a ")]] ∧
    fingerprint ["name"] [("name", "A")] = fingerprint ["name"] [("name", "a ")] := by
  constructor
  · rfl
  · decide

/-- C5, amended: a persistence pass with a non-empty set of new items and an
existing file rewrites the file as the existing rows followed by the new rows,
de-duplicated by the *raw* (exact, un-normalized) key tuple, keeping the first
occurrence: the result (i) is a subsequence of existing-then-new (so the order
is existing rows, then new rows), (ii) has pairwise distinct raw key tuples,
(iii) covers every input row's raw key tuple, and (iv) re-running against the
same store — every new item's raw key tuple already on disk, the disk file
itself raw-duplicate-free — rewrites exactly the existing rows, so no
duplicate by raw key tuple is ever introduced on resume. -/
theorem save_csv_merge_dedup (keyFields : List String)
    (existing newItems : List Rec) (hne : newItems ≠ []) :
    saveDataCsv keyFields newItems (some existing) =
      some (dropDupKeys keyFields (existing ++ newItems)) ∧
    (dropDupKeys keyFields (existing ++ newItems)).Sublist (existing ++ newItems) ∧
    (dropDupKeys keyFields (existing ++ newItems)).Pairwise
      (fun a b => rawKey keyFields a ≠ rawKey keyFields b) ∧
    (∀ r ∈ existing ++ newItems,
      ∃ r' ∈ dropDupKeys keyFields (existing ++ newItems),
        rawKey keyFields r' = rawKey keyFields r) ∧
    (existing.Pairwise (fun a b => rawKey keyFields a ≠ rawKey keyFields b) →
      (∀ a ∈ newItems, rawKey keyFields a ∈ existing.map (rawKey keyFields)) →
      dropDupKeys keyFields (existing ++ newItems) = existing) := by
  refine ⟨?_, ?_, ?_, ?_, ?_⟩
  · unfold saveDataCsv
    rw [if_neg (by simpa using hne)]
  · exact dropDupAux_sublist keyFields (existing ++ newItems) []
  · exact dropDupAux_pairwise keyFields (existing ++ newItems) []
  · intro r hr
    rcases dropDupAux_covers keyFields (existing ++ newItems) [] r hr with h | h
    · cases h
    · exact h
  · intro hpw hsub
    unfold dropDupKeys
    rw [dropDupAux_append keyFields existing newItems []]
    rw [dropDupAux_id_of_nodup keyFields existing [] (by simp) hpw]
    rw [dropDupAux_nil_of_all_seen keyFields newItems _
      (by intro y hy; simpa using hsub y hy)]
    simp

/-- C5, witness for `save_csv_merge_dedup` at a concrete input: an existing
row and a new exact-duplicate row; the rewritten file is exactly the existing
row. -/
theorem save_csv_merge_dedup_witness :
    saveDataCsv ["name"] [[("name", "x")]] (some [[("name", "x")]]) =
      some (dropDupKeys ["name"] ([[("name", "x")]] ++ [[("name", "x")]])) ∧
    dropDupKeys ["name"] ([[("name", "x")]] ++ [[("name", "x")]]) =
      [[("name", "x")]] := by
  have h := save_csv_merge_dedup ["name"] [[("name", "x")]] [[("name", "x")]]
    (by decide)
  refine ⟨h.1, h.2.2.2.2 ?_ ?_⟩
  · decide
  · decide

end Crawler

namespace Crawler

/-! ### Persisted-state loading (`_load_existing_data_csv`,
`base_crawler.py:149-166`, and `_load_processed_urls_cache`,
`base_crawler.py:193-208`) -/

/-- A CSV backing file on disk: absent, present but zero-byte, or a parsed
table of rows. -/
inductive CsvFile
  | missing
  | empty
  | table (rows : List Rec)
deriving DecidableEq

/-- `pandas.read_csv`: reading a zero-byte file raises
`pandas.errors.EmptyDataError` ("No columns to parse from file"); a parsed
table yields its rows.  (pandas is an external dependency; only the behaviour
its documentation fixes for these two cases is modelled.) -/
def readCsv : CsvFile → Except String (List Rec)
  | .missing => .error "FileNotFoundError"
  | .empty => .error "pandas.errors.EmptyDataError"
  | .table rows => .ok rows

/-- `BaseCrawler._load_existing_data_csv` (`base_crawler.py:149-166`): when
the file exists it is read with `pd.read_csv` — with no `try` around it, so a
raised `EmptyDataError` propagates to the caller (`crawl` invokes this outside
its own `try`, `base_crawler.py:412-413`); each loaded row's normalized key
tuple is added to `seen_items` and the rows extend `all_items`. -/
def loadExistingDataCsv (keyFields : List String) (file : CsvFile)
    (seen : List (List String)) (allItems : List Rec) :
    Except String (List (List String) × List Rec) :=
  match file with
  | .missing => .ok (seen, allItems)
  | f =>
    match readCsv f with
    | .error e => .error e
    | .ok rows =>
      .ok (seen ++ rows.map (fingerprint keyFields), allItems ++ rows)

/-- `BaseCrawler._load_processed_urls_cache` (`base_crawler.py:193-208`): a
missing ledger file is created with headers only; a read failure is caught and
logged (`except` at lines 203-204), leaving the cache unchanged; otherwise the
`url` column extends the cache. -/
def loadProcessedUrlsCache (file : CsvFile) (cache : List String) :
    List String × CsvFile :=
  match file with
  | .missing => (cache, .table [])
  | f =>
    match readCsv f with
    | .error _ => (cache, f)
    | .ok rows => (cache ++ rows.map (fun r => getD r "url"), f)

/-! ### Claim C9: tolerance of missing and empty backing files -/

/-- C9: a *missing* backing file is tolerated by both loaders (empty ledger,
empty existing-record list, no error), but a present zero-byte tabular file
makes `_load_existing_data_csv` raise `pandas.errors.EmptyDataError`, which
nothing catches — `crawl` calls the loader outside its `try` block — so the
run aborts, against the claim.  The processed-URLs loader, by contrast, does
catch the same error. -/
theorem load_empty_file_bug :
    loadExistingDataCsv ["name"] .missing [] [] = .ok ([], []) ∧
    loadExistingDataCsv ["name"] .empty [] [] =
      .error "pandas.errors.EmptyDataError" ∧
    loadProcessedUrlsCache .missing [] = ([], .table []) ∧
    loadProcessedUrlsCache .empty [] = ([], .empty) :=
  ⟨rfl, rfl, rfl, rfl⟩

end Crawler

namespace Crawler

/-! ### The orchestration loop (`BaseCrawler.crawl`, `base_crawler.py:393-511`)

The loop body (lines 426-492) is embedded as a step function over an explicit
state, producing an event trace.  The abstract collaborators are parameters:
`extract i` is what `process_item` returns for task `i`, and `writes i` is the
list of records `process_item` itself durably writes to the sink while running
(the concrete crawlers differ here: `_append_item_to_csv` /
`_save_data_json` are called inside `process_item` in
`angel_travel_crawlers.py:136`, `dari_tour_excursions_crawler.py:296/314` and
`dari_tour_excursions_detailed_crawler.py:126`, while
`angel_travel_detailed_crawler.py:140` and `hotel_details_crawler.py:170`
only return the record).  `stopNow i` is the value of
`stop_event.is_set()` observed at the top of iteration `i`, and `stopDuring i`
says whether the stop event fires during iteration `i`'s pacing wait.  `u i`
is the unit random draw behind `random.uniform`. -/

/-- A work item handed to the loop: the dict's fields, plus the `str(item)`
fallback used for `item_url` when the dict has no `link` key. -/
structure Task where
  fields : Rec
  asStr : String
deriving DecidableEq

/-- The configuration the loop reads from `self`. -/
structure CrawlCfg where
  keyFields : List String
  outputJson : Bool
  minDelay : ℚ
  maxDelay : ℚ
deriving DecidableEq

/-- The mutable state the loop touches: `self.all_items`, the processed-URLs
cache and its backing ledger file, the durable result sink, and whether the
fetch session is open. -/
structure CrawlState where
  allItems : List Rec
  cache : List String
  ledger : List (String × String)
  sink : List Rec
  sessionOpen : Bool
deriving DecidableEq

/-- Observable events of one run, each tagged with the iteration index. -/
inductive Event
  | capBreak (i : Nat)
  | stopBreak (i : Nat)
  | skipCache (i : Nat) (url : String)
  | skipDup (i : Nat)
  | ledgerAdd (i : Nat) (url name : String)
  | attempt (i : Nat)
  | accepted (i : Nat)
  | paced (i : Nat) (d : ℚ)
  | paceInterrupted (i : Nat)
deriving DecidableEq

/-- The iteration an event belongs to. -/
def Event.idx : Event → Nat
  | capBreak i => i
  | stopBreak i => i
  | skipCache i _ => i
  | skipDup i => i
  | ledgerAdd i _ _ => i
  | attempt i => i
  | accepted i => i
  | paced i _ => i
  | paceInterrupted i => i

/-- Result of one loop iteration: the new state, the events it produced, and
whether the iteration broke out of the loop. -/
structure StepOut where
  state : CrawlState
  events : List Event
  brk : Bool
deriving DecidableEq

/-- CPython `random.uniform(a, b) = a + (b - a) * random()` with the unit
draw `u` explicit. -/
def uniformDraw (a b u : ℚ) : ℚ :=
  a + (b - a) * u

/-- `item.get('link') if isinstance(item, dict) and 'link' in item else
str(item)` (`base_crawler.py:448`). -/
def itemUrl (t : Task) : String :=
  if hasKey t.fields "link" then getD t.fields "link" else t.asStr

/-- `item.get('name', 'N/A') if isinstance(item, dict) else 'N/A'`
(`base_crawler.py:467`). -/
def tempOfferName (t : Task) : String :=
  (t.fields.lookup "name").getD "N/A"

/-- `BaseCrawler._add_processed_url` (`base_crawler.py:210-222`): if the URL
is not in the cache, append a `(url, offer_name)` row to the ledger file and
add the URL to the cache; otherwise do nothing. -/
def addProcessedUrl (s : CrawlState) (url nm : String) : CrawlState :=
  if url ∈ s.cache then s
  else { s with ledger := s.ledger ++ [(url, nm)], cache := s.cache ++ [url] }

/-- The `max_items` check of `base_crawler.py:435`:
`max_items is not None and len(self.all_items) >= max_items`. -/
def capHit (maxItems : Option Nat) (s : CrawlState) : Bool :=
  match maxItems with
  | some m => m ≤ s.allItems.length
  | none => false

/-- State change of the non-skipped part of a loop iteration
(`base_crawler.py:467-480`): `_add_processed_url(item_url, temp_offer_name)`,
then `process_item` runs — performing its own sink writes — and a truthy
result is appended to `all_items` when the output type is JSON
(`base_crawler.py:473-475`; in CSV mode the base loop appends nothing). -/
def procState (cfg : CrawlCfg) (ext : Option Rec) (writes : List Rec)
    (s : CrawlState) (url nm : String) : CrawlState :=
  let s1 := addProcessedUrl s url nm
  { s1 with
    sink := s1.sink ++ writes
    allItems :=
      match ext with
      | some r => if cfg.outputJson then s1.allItems ++ [r] else s1.allItems
      | none => s1.allItems }

/-- Events of the non-skipped part of a loop iteration: the ledger append,
then the extraction attempt, then acceptance if `process_item` returned a
record. -/
def procEvents (ext : Option Rec) (i : Nat) (url nm : String) : List Event :=
  [Event.ledgerAdd i url nm, Event.attempt i] ++
    (match ext with | some _ => [Event.accepted i] | none => [])

/-- One iteration of the `for i, item in enumerate(urls_to_crawl)` loop
(`base_crawler.py:426-492`), in source order: item-cap break; stop-event
break; skip (`continue`, hence no pacing) when the URL is already in the
processed-URLs cache; skip when the item carries all key fields and
`is_duplicate` holds; `_add_processed_url` *before* `process_item`; on a
truthy result in JSON mode append it to `all_items` (`writes` are the sink
writes `process_item` performed itself); then, unless this is the last task,
the pacing wait `random.uniform(MIN_DELAY_SECONDS, MAX_DELAY_SECONDS)`, which
the stop event interrupts into a loop break. -/
def crawlStep (cfg : CrawlCfg) (seen : List (List String))
    (maxItems : Option Nat) (n : Nat) (ext : Option Rec) (writes : List Rec)
    (stopNow stopDuring : Bool) (u : ℚ) (i : Nat) (t : Task)
    (s : CrawlState) : StepOut :=
  if capHit maxItems s then ⟨s, [.capBreak i], true⟩
  else if stopNow then ⟨s, [.stopBreak i], true⟩
  else
    let url := itemUrl t
    if url ∈ s.cache then ⟨s, [.skipCache i url], false⟩
    else if cfg.keyFields.all (hasKey t.fields) &&
        is_duplicate cfg.keyFields seen t.fields then
      ⟨s, [.skipDup i], false⟩
    else
      let s2 := procState cfg ext writes s url (tempOfferName t)
      let evts := procEvents ext i url (tempOfferName t)
      if i < n - 1 then
        if stopDuring then ⟨s2, evts ++ [.paceInterrupted i], true⟩
        else ⟨s2, evts ++ [.paced i (uniformDraw cfg.minDelay cfg.maxDelay u)], false⟩
      else ⟨s2, evts, false⟩

/-- The whole task loop: iterate `crawlStep` over the fetched tasks, stopping
when an iteration breaks. -/
def crawlLoop (cfg : CrawlCfg) (seen : List (List String))
    (maxItems : Option Nat) (n : Nat) (ext : Nat → Option Rec)
    (writes : Nat → List Rec) (stopNow stopDuring : Nat → Bool)
    (u : Nat → ℚ) : Nat → List Task → CrawlState → CrawlState × List Event
  | _, [], s => (s, [])
  | i, t :: rest, s =>
    let out := crawlStep cfg seen maxItems n (ext i) (writes i) (stopNow i)
      (stopDuring i) (u i) i t s
    if out.brk then (out.state, out.events)
    else
      let nxt := crawlLoop cfg seen maxItems n ext writes stopNow stopDuring u
        (i + 1) rest out.state
      (nxt.1, out.events ++ nxt.2)

/-- `BaseCrawler.crawl`'s task loop over the fetched list, from index 0, with
`n = len(urls_to_crawl)`. -/
def crawlRun (cfg : CrawlCfg) (seen : List (List String))
    (maxItems : Option Nat) (tasks : List Task) (ext : Nat → Option Rec)
    (writes : Nat → List Rec) (stopNow stopDuring : Nat → Bool)
    (u : Nat → ℚ) (s : CrawlState) : CrawlState × List Event :=
  crawlLoop cfg seen maxItems tasks.length ext writes stopNow stopDuring u
    0 tasks s

/-- The `finally` block of `crawl` (`base_crawler.py:499-511`): it closes the
fetch session (`self.crawler.__aexit__`) and reports LLM usage; it performs no
write to any sink (`save_data` has no caller in the repository). -/
def finalizeRun (s : CrawlState) : CrawlState :=
  { s with sessionOpen := false }

/-! Structural lemmas about one loop iteration. -/

theorem crawlStep_shape (cfg : CrawlCfg) (seen : List (List String))
    (maxItems : Option Nat) (n : Nat) (ext : Option Rec) (writes : List Rec)
    (stopNow stopDuring : Bool) (u : ℚ) (i : Nat) (t : Task)
    (s : CrawlState) :
    crawlStep cfg seen maxItems n ext writes stopNow stopDuring u i t s =
        ⟨s, [.capBreak i], true⟩ ∨
    crawlStep cfg seen maxItems n ext writes stopNow stopDuring u i t s =
        ⟨s, [.stopBreak i], true⟩ ∨
    crawlStep cfg seen maxItems n ext writes stopNow stopDuring u i t s =
        ⟨s, [.skipCache i (itemUrl t)], false⟩ ∨
    crawlStep cfg seen maxItems n ext writes stopNow stopDuring u i t s =
        ⟨s, [.skipDup i], false⟩ ∨
    (itemUrl t ∉ s.cache ∧
      ((¬ i < n - 1 ∧
        crawlStep cfg seen maxItems n ext writes stopNow stopDuring u i t s =
          ⟨procState cfg ext writes s (itemUrl t) (tempOfferName t),
            procEvents ext i (itemUrl t) (tempOfferName t), false⟩) ∨
       (i < n - 1 ∧ stopDuring = true ∧
        crawlStep cfg seen maxItems n ext writes stopNow stopDuring u i t s =
          ⟨procState cfg ext writes s (itemUrl t) (tempOfferName t),
            procEvents ext i (itemUrl t) (tempOfferName t) ++ [.paceInterrupted i],
            true⟩) ∨
       (i < n - 1 ∧ stopDuring = false ∧
        crawlStep cfg seen maxItems n ext writes stopNow stopDuring u i t s =
          ⟨procState cfg ext writes s (itemUrl t) (tempOfferName t),
            procEvents ext i (itemUrl t) (tempOfferName t) ++
              [.paced i (uniformDraw cfg.minDelay cfg.maxDelay u)],
            false⟩))) := by
  unfold crawlStep
  by_cases h1 : capHit maxItems s = true
  · rw [if_pos h1]; exact Or.inl rfl
  · rw [if_neg h1]
    by_cases h2 : stopNow = true
    · rw [if_pos h2]; exact Or.inr (Or.inl rfl)
    · rw [if_neg h2]
      by_cases h3 : itemUrl t ∈ s.cache
      · rw [if_pos h3]; exact Or.inr (Or.inr (Or.inl rfl))
      · rw [if_neg h3]
        by_cases h4 : (cfg.keyFields.all (hasKey t.fields) &&
            is_duplicate cfg.keyFields seen t.fields) = true
        · rw [if_pos h4]; exact Or.inr (Or.inr (Or.inr (Or.inl rfl)))
        · rw [if_neg h4]
          refine Or.inr (Or.inr (Or.inr (Or.inr ⟨h3, ?_⟩)))
          by_cases h5 : i < n - 1
          · rw [if_pos h5]
            by_cases h6 : stopDuring = true
            · rw [if_pos h6]
              exact Or.inr (Or.inl ⟨h5, h6, rfl⟩)
            · rw [if_neg h6]
              exact Or.inr (Or.inr ⟨h5, Bool.not_eq_true _ ▸
                eq_false_of_ne_true h6, rfl⟩)
          · rw [if_neg h5]
            exact Or.inl ⟨h5, rfl⟩

theorem addProcessedUrl_sink (s : CrawlState) (url nm : String) :
    (addProcessedUrl s url nm).sink = s.sink := by
  unfold addProcessedUrl
  split <;> rfl

theorem addProcessedUrl_allItems (s : CrawlState) (url nm : String) :
    (addProcessedUrl s url nm).allItems = s.allItems := by
  unfold addProcessedUrl
  split <;> rfl

/-- C7's idempotence core: once a URL has been added, adding it again (with
any label) changes nothing — the ledger file gains no second row. -/
theorem addProcessedUrl_idem (s : CrawlState) (url nm nm' : String) :
    addProcessedUrl (addProcessedUrl s url nm) url nm' =
      addProcessedUrl s url nm := by
  unfold addProcessedUrl
  by_cases h : url ∈ s.cache
  · rw [if_pos h, if_pos h]
  · rw [if_neg h]
    have hc : url ∈ s.cache ++ [url] := List.mem_append_right _ (List.mem_singleton.mpr rfl)
    rw [if_pos hc]

theorem addProcessedUrl_ledger_of_not_cached (s : CrawlState) (url nm : String)
    (h : url ∉ s.cache) :
    (addProcessedUrl s url nm).ledger = s.ledger ++ [(url, nm)] := by
  unfold addProcessedUrl
  rw [if_neg h]

theorem procState_sink (cfg : CrawlCfg) (ext : Option Rec) (writes : List Rec)
    (s : CrawlState) (url nm : String) :
    (procState cfg ext writes s url nm).sink = s.sink ++ writes := by
  unfold procState
  simp [addProcessedUrl_sink]

theorem procEvents_idx (ext : Option Rec) (i : Nat) (url nm : String) :
    ∀ e ∈ procEvents ext i url nm, e.idx = i := by
  intro e he
  cases ext with
  | none =>
    simp [procEvents] at he
    rcases he with rfl | rfl <;> rfl
  | some r =>
    simp [procEvents] at he
    rcases he with rfl | rfl | rfl <;> rfl

theorem procEvents_no_interrupt (ext : Option Rec) (i k : Nat)
    (url nm : String) : Event.paceInterrupted k ∉ procEvents ext i url nm := by
  cases ext <;> simp [procEvents]

theorem procEvents_no_paced (ext : Option Rec) (i k : Nat) (d : ℚ)
    (url nm : String) : Event.paced k d ∉ procEvents ext i url nm := by
  cases ext <;> simp [procEvents]

theorem procEvents_accepted (ext : Option Rec) (i k : Nat) (url nm : String)
    (h : Event.accepted k ∈ procEvents ext i url nm) :
    k = i ∧ ext.isSome = true := by
  cases ext <;> simp [procEvents] at h
  exact ⟨h, rfl⟩

theorem procEvents_attempt_mem (ext : Option Rec) (i : Nat) (url nm : String) :
    Event.attempt i ∈ procEvents ext i url nm := by
  cases ext <;> simp [procEvents]

theorem crawlStep_idx (cfg : CrawlCfg) (seen : List (List String))
    (maxItems : Option Nat) (n : Nat) (ext : Option Rec) (writes : List Rec)
    (stopNow stopDuring : Bool) (u : ℚ) (i : Nat) (t : Task) (s : CrawlState) :
    ∀ e ∈ (crawlStep cfg seen maxItems n ext writes stopNow stopDuring u i t s).events,
      e.idx = i := by
  rcases crawlStep_shape cfg seen maxItems n ext writes stopNow stopDuring u i t s with
    h | h | h | h | ⟨hc, ⟨h1, h⟩ | ⟨h1, h2, h⟩ | ⟨h1, h2, h⟩⟩ <;> rw [h] <;> intro e he
  · rw [List.mem_singleton.mp he]; rfl
  · rw [List.mem_singleton.mp he]; rfl
  · rw [List.mem_singleton.mp he]; rfl
  · rw [List.mem_singleton.mp he]; rfl
  · exact procEvents_idx ext i (itemUrl t) (tempOfferName t) e he
  · rcases List.mem_append.mp he with h' | h'
    · exact procEvents_idx ext i (itemUrl t) (tempOfferName t) e h'
    · rw [List.mem_singleton.mp h']; rfl
  · rcases List.mem_append.mp he with h' | h'
    · exact procEvents_idx ext i (itemUrl t) (tempOfferName t) e h'
    · rw [List.mem_singleton.mp h']; rfl

theorem crawlStep_brk_of_interrupt (cfg : CrawlCfg) (seen : List (List String))
    (maxItems : Option Nat) (n : Nat) (ext : Option Rec) (writes : List Rec)
    (stopNow stopDuring : Bool) (u : ℚ) (i k : Nat) (t : Task) (s : CrawlState)
    (h : Event.paceInterrupted k ∈
      (crawlStep cfg seen maxItems n ext writes stopNow stopDuring u i t s).events) :
    (crawlStep cfg seen maxItems n ext writes stopNow stopDuring u i t s).brk = true := by
  rcases crawlStep_shape cfg seen maxItems n ext writes stopNow stopDuring u i t s with
    he | he | he | he | ⟨hc, hcase⟩
  · rw [he] at h; simp at h
  · rw [he] at h; simp at h
  · rw [he] at h; simp at h
  · rw [he] at h; simp at h
  · rcases hcase with ⟨h1, he⟩ | ⟨h1, h2, he⟩ | ⟨h1, h2, he⟩
    · rw [he] at h
      exact absurd h (procEvents_no_interrupt ext i k (itemUrl t) (tempOfferName t))
    · rw [he]
    · rw [he] at h
      rcases List.mem_append.mp h with h' | h'
      · exact absurd h' (procEvents_no_interrupt ext i k (itemUrl t) (tempOfferName t))
      · simp at h'

theorem crawlStep_sink_mono (cfg : CrawlCfg) (seen : List (List String))
    (maxItems : Option Nat) (n : Nat) (ext : Option Rec) (writes : List Rec)
    (stopNow stopDuring : Bool) (u : ℚ) (i : Nat) (t : Task) (s : CrawlState) :
    ∀ r ∈ s.sink,
      r ∈ (crawlStep cfg seen maxItems n ext writes stopNow stopDuring u i t s).state.sink := by
  rcases crawlStep_shape cfg seen maxItems n ext writes stopNow stopDuring u i t s with
    he | he | he | he | ⟨hc, ⟨h1, he⟩ | ⟨h1, h2, he⟩ | ⟨h1, h2, he⟩⟩ <;> rw [he] <;>
    intro r hr
  · exact hr
  · exact hr
  · exact hr
  · exact hr
  all_goals
    show r ∈ (procState cfg ext writes s (itemUrl t) (tempOfferName t)).sink
  all_goals rw [procState_sink]
  all_goals exact List.mem_append_left _ hr

theorem crawlStep_accepted_sink (cfg : CrawlCfg) (seen : List (List String))
    (maxItems : Option Nat) (n : Nat) (ext : Option Rec) (writes : List Rec)
    (stopNow stopDuring : Bool) (u : ℚ) (i k : Nat) (t : Task) (s : CrawlState)
    (h : Event.accepted k ∈
      (crawlStep cfg seen maxItems n ext writes stopNow stopDuring u i t s).events) :
    ∀ r ∈ writes,
      r ∈ (crawlStep cfg seen maxItems n ext writes stopNow stopDuring u i t s).state.sink := by
  rcases crawlStep_shape cfg seen maxItems n ext writes stopNow stopDuring u i t s with
    he | he | he | he | ⟨hc, ⟨h1, he⟩ | ⟨h1, h2, he⟩ | ⟨h1, h2, he⟩⟩ <;> rw [he] <;> rw [he] at h
  · simp at h
  · simp at h
  · simp at h
  · simp at h
  all_goals intro r hr
  all_goals
    show r ∈ (procState cfg ext writes s (itemUrl t) (tempOfferName t)).sink
  all_goals rw [procState_sink]
  all_goals exact List.mem_append_right _ hr

theorem procEvents_no_skipCache (ext : Option Rec) (i k : Nat)
    (url' url nm : String) : Event.skipCache k url' ∉ procEvents ext i url nm := by
  cases ext <;> simp [procEvents]

theorem procEvents_no_skipDup (ext : Option Rec) (i k : Nat)
    (url nm : String) : Event.skipDup k ∉ procEvents ext i url nm := by
  cases ext <;> simp [procEvents]

theorem procState_ledger (cfg : CrawlCfg) (ext : Option Rec) (writes : List Rec)
    (s : CrawlState) (url nm : String) :
    (procState cfg ext writes s url nm).ledger = (addProcessedUrl s url nm).ledger := rfl

theorem procState_cache (cfg : CrawlCfg) (ext : Option Rec) (writes : List Rec)
    (s : CrawlState) (url nm : String) :
    (procState cfg ext writes s url nm).cache = (addProcessedUrl s url nm).cache := rfl

theorem addProcessedUrl_cache_of_not_cached (s : CrawlState) (url nm : String)
    (h : url ∉ s.cache) :
    (addProcessedUrl s url nm).cache = s.cache ++ [url] := by
  unfold addProcessedUrl
  rw [if_neg h]

/-- A `paced` event can only arise from the non-last, non-interrupted
processing branch: it closes the iteration's event list, its index is the
iteration's, and its duration is `uniform(minDelay, maxDelay)`. -/
theorem crawlStep_paced (cfg : CrawlCfg) (seen : List (List String))
    (maxItems : Option Nat) (n : Nat) (ext : Option Rec) (writes : List Rec)
    (stopNow stopDuring : Bool) (u : ℚ) (i k : Nat) (d : ℚ) (t : Task)
    (s : CrawlState)
    (h : Event.paced k d ∈
      (crawlStep cfg seen maxItems n ext writes stopNow stopDuring u i t s).events) :
    k = i ∧ i < n - 1 ∧ stopDuring = false ∧
    d = uniformDraw cfg.minDelay cfg.maxDelay u ∧
    (crawlStep cfg seen maxItems n ext writes stopNow stopDuring u i t s).events =
      procEvents ext i (itemUrl t) (tempOfferName t) ++ [Event.paced k d] ∧
    Event.attempt i ∈
      (crawlStep cfg seen maxItems n ext writes stopNow stopDuring u i t s).events := by
  rcases crawlStep_shape cfg seen maxItems n ext writes stopNow stopDuring u i t s with
    he | he | he | he | ⟨hc, hcase⟩
  · rw [he] at h; simp at h
  · rw [he] at h; simp at h
  · rw [he] at h; simp at h
  · rw [he] at h; simp at h
  · rcases hcase with ⟨h1, he⟩ | ⟨h1, h2, he⟩ | ⟨h1, h2, he⟩
    · rw [he] at h
      exact absurd h (procEvents_no_paced ext i k d (itemUrl t) (tempOfferName t))
    · rw [he] at h
      rcases List.mem_append.mp h with h' | h'
      · exact absurd h' (procEvents_no_paced ext i k d (itemUrl t) (tempOfferName t))
      · simp at h'
    · rw [he] at h
      rcases List.mem_append.mp h with h' | h'
      · exact absurd h' (procEvents_no_paced ext i k d (itemUrl t) (tempOfferName t))
      · have h'' := List.mem_singleton.mp h'
        have hk : k = i := by cases h''; rfl
        have hd : d = uniformDraw cfg.minDelay cfg.maxDelay u := by cases h''; rfl
        subst hk
        refine ⟨rfl, h1, h2, hd, ?_, ?_⟩
        · rw [he, hd]
        · rw [he]
          exact List.mem_append_left _
            (procEvents_attempt_mem ext k (itemUrl t) (tempOfferName t))

/-- On the last task (`¬ i < n - 1`) no `paced` event is emitted. -/
theorem crawlStep_last_no_paced (cfg : CrawlCfg) (seen : List (List String))
    (maxItems : Option Nat) (n : Nat) (ext : Option Rec) (writes : List Rec)
    (stopNow stopDuring : Bool) (u : ℚ) (i : Nat) (t : Task) (s : CrawlState)
    (hlast : ¬ i < n - 1) :
    ∀ (k : Nat) (d : ℚ), Event.paced k d ∉
      (crawlStep cfg seen maxItems n ext writes stopNow stopDuring u i t s).events := by
  intro k d h
  rcases crawlStep_paced cfg seen maxItems n ext writes stopNow stopDuring u i k d t s h with
    ⟨_, h1, _⟩
  exact hlast h1

/-- If the stop event fires during the pacing wait of a processing iteration,
the iteration ends with the cancellation event, breaks the loop, and emits no
completed `paced` wait. -/
theorem crawlStep_interrupt_shape (cfg : CrawlCfg) (seen : List (List String))
    (maxItems : Option Nat) (n : Nat) (ext : Option Rec) (writes : List Rec)
    (stopNow : Bool) (u : ℚ) (i : Nat) (t : Task) (s : CrawlState)
    (hlt : i < n - 1)
    (hatt : Event.attempt i ∈
      (crawlStep cfg seen maxItems n ext writes stopNow true u i t s).events) :
    (crawlStep cfg seen maxItems n ext writes stopNow true u i t s).brk = true ∧
    (crawlStep cfg seen maxItems n ext writes stopNow true u i t s).events =
      procEvents ext i (itemUrl t) (tempOfferName t) ++ [Event.paceInterrupted i] ∧
    ∀ (k : Nat) (d : ℚ), Event.paced k d ∉
      (crawlStep cfg seen maxItems n ext writes stopNow true u i t s).events := by
  rcases crawlStep_shape cfg seen maxItems n ext writes stopNow true u i t s with
    he | he | he | he | ⟨hc, hcase⟩
  · rw [he] at hatt; simp at hatt
  · rw [he] at hatt; simp at hatt
  · rw [he] at hatt; simp at hatt
  · rw [he] at hatt; simp at hatt
  · rcases hcase with ⟨h1, he⟩ | ⟨h1, h2, he⟩ | ⟨h1, h2, he⟩
    · exact absurd hlt h1
    · refine ⟨by rw [he], by rw [he], ?_⟩
      intro k d h
      rw [he] at h
      rcases List.mem_append.mp h with h' | h'
      · exact procEvents_no_paced ext i k d (itemUrl t) (tempOfferName t) h'
      · simp at h'
    · cases h2

end Crawler

namespace Crawler

/-! Lemmas about the whole loop. -/

theorem crawlLoop_nil (cfg : CrawlCfg) (seen : List (List String))
    (maxItems : Option Nat) (n : Nat) (ext : Nat → Option Rec)
    (writes : Nat → List Rec) (stopNow stopDuring : Nat → Bool) (u : Nat → ℚ)
    (i : Nat) (s : CrawlState) :
    crawlLoop cfg seen maxItems n ext writes stopNow stopDuring u i [] s = (s, []) := rfl

theorem crawlLoop_cons (cfg : CrawlCfg) (seen : List (List String))
    (maxItems : Option Nat) (n : Nat) (ext : Nat → Option Rec)
    (writes : Nat → List Rec) (stopNow stopDuring : Nat → Bool) (u : Nat → ℚ)
    (i : Nat) (t : Task) (rest : List Task) (s : CrawlState) :
    crawlLoop cfg seen maxItems n ext writes stopNow stopDuring u i (t :: rest) s =
      (if (crawlStep cfg seen maxItems n (ext i) (writes i) (stopNow i)
            (stopDuring i) (u i) i t s).brk then
        ((crawlStep cfg seen maxItems n (ext i) (writes i) (stopNow i)
            (stopDuring i) (u i) i t s).state,
          (crawlStep cfg seen maxItems n (ext i) (writes i) (stopNow i)
            (stopDuring i) (u i) i t s).events)
      else
        ((crawlLoop cfg seen maxItems n ext writes stopNow stopDuring u (i + 1) rest
            (crawlStep cfg seen maxItems n (ext i) (writes i) (stopNow i)
              (stopDuring i) (u i) i t s).state).1,
          (crawlStep cfg seen maxItems n (ext i) (writes i) (stopNow i)
            (stopDuring i) (u i) i t s).events ++
          (crawlLoop cfg seen maxItems n ext writes stopNow stopDuring u (i + 1) rest
            (crawlStep cfg seen maxItems n (ext i) (writes i) (stopNow i)
              (stopDuring i) (u i) i t s).state).2)) := rfl

theorem crawlLoop_idx (cfg : CrawlCfg) (seen : List (List String))
    (maxItems : Option Nat) (n : Nat) (ext : Nat → Option Rec)
    (writes : Nat → List Rec) (stopNow stopDuring : Nat → Bool) (u : Nat → ℚ) :
    ∀ (ts : List Task) (i : Nat) (s : CrawlState),
      ∀ e ∈ (crawlLoop cfg seen maxItems n ext writes stopNow stopDuring u i ts s).2,
        i ≤ e.idx := by
  intro ts
  induction ts with
  | nil => intro i s e he; rw [crawlLoop_nil] at he; cases he
  | cons t rest ih =>
    intro i s e he
    rw [crawlLoop_cons] at he
    by_cases hb : (crawlStep cfg seen maxItems n (ext i) (writes i) (stopNow i)
        (stopDuring i) (u i) i t s).brk = true
    · rw [if_pos hb] at he
      exact le_of_eq (crawlStep_idx cfg seen maxItems n (ext i) (writes i)
        (stopNow i) (stopDuring i) (u i) i t s e he).symm
    · rw [if_neg hb] at he
      rcases List.mem_append.mp he with h1 | h2
      · exact le_of_eq (crawlStep_idx cfg seen maxItems n (ext i) (writes i)
          (stopNow i) (stopDuring i) (u i) i t s e h1).symm
      · exact Nat.le_of_succ_le (ih (i + 1) _ e h2)

theorem crawlLoop_le_of_interrupt (cfg : CrawlCfg) (seen : List (List String))
    (maxItems : Option Nat) (n : Nat) (ext : Nat → Option Rec)
    (writes : Nat → List Rec) (stopNow stopDuring : Nat → Bool) (u : Nat → ℚ) :
    ∀ (ts : List Task) (i : Nat) (s : CrawlState) (k : Nat),
      Event.paceInterrupted k ∈
        (crawlLoop cfg seen maxItems n ext writes stopNow stopDuring u i ts s).2 →
      ∀ e ∈ (crawlLoop cfg seen maxItems n ext writes stopNow stopDuring u i ts s).2,
        e.idx ≤ k := by
  intro ts
  induction ts with
  | nil => intro i s k hk e he; rw [crawlLoop_nil] at he; cases he
  | cons t rest ih =>
    intro i s k hk e he
    rw [crawlLoop_cons] at hk he
    by_cases hb : (crawlStep cfg seen maxItems n (ext i) (writes i) (stopNow i)
        (stopDuring i) (u i) i t s).brk = true
    · rw [if_pos hb] at hk he
      have hki : (Event.paceInterrupted k).idx = i :=
        crawlStep_idx cfg seen maxItems n (ext i) (writes i) (stopNow i)
          (stopDuring i) (u i) i t s _ hk
      have hei : e.idx = i :=
        crawlStep_idx cfg seen maxItems n (ext i) (writes i) (stopNow i)
          (stopDuring i) (u i) i t s e he
      rw [hei]
      exact le_of_eq (by simpa [Event.idx] using hki.symm)
    · rw [if_neg hb] at hk he
      rcases List.mem_append.mp hk with hk1 | hk2
      · exact absurd (crawlStep_brk_of_interrupt cfg seen maxItems n (ext i)
          (writes i) (stopNow i) (stopDuring i) (u i) i k t s hk1) hb
      · have hik : i + 1 ≤ (Event.paceInterrupted k).idx :=
          crawlLoop_idx cfg seen maxItems n ext writes stopNow stopDuring u rest
            (i + 1) _ _ hk2
        rcases List.mem_append.mp he with he1 | he2
        · have hei : e.idx = i :=
            crawlStep_idx cfg seen maxItems n (ext i) (writes i) (stopNow i)
              (stopDuring i) (u i) i t s e he1
          rw [hei]
          exact Nat.le_of_succ_le (by simpa [Event.idx] using hik)
        · exact ih (i + 1) _ k hk2 e he2

theorem crawlLoop_sink_mono (cfg : CrawlCfg) (seen : List (List String))
    (maxItems : Option Nat) (n : Nat) (ext : Nat → Option Rec)
    (writes : Nat → List Rec) (stopNow stopDuring : Nat → Bool) (u : Nat → ℚ) :
    ∀ (ts : List Task) (i : Nat) (s : CrawlState),
      ∀ r ∈ s.sink,
        r ∈ (crawlLoop cfg seen maxItems n ext writes stopNow stopDuring u i ts s).1.sink := by
  intro ts
  induction ts with
  | nil => intro i s r hr; rw [crawlLoop_nil]; exact hr
  | cons t rest ih =>
    intro i s r hr
    rw [crawlLoop_cons]
    by_cases hb : (crawlStep cfg seen maxItems n (ext i) (writes i) (stopNow i)
        (stopDuring i) (u i) i t s).brk = true
    · rw [if_pos hb]
      exact crawlStep_sink_mono cfg seen maxItems n (ext i) (writes i) (stopNow i)
        (stopDuring i) (u i) i t s r hr
    · rw [if_neg hb]
      exact ih (i + 1) _ r (crawlStep_sink_mono cfg seen maxItems n (ext i)
        (writes i) (stopNow i) (stopDuring i) (u i) i t s r hr)

theorem crawlLoop_accepted_sink (cfg : CrawlCfg) (seen : List (List String))
    (maxItems : Option Nat) (n : Nat) (ext : Nat → Option Rec)
    (writes : Nat → List Rec) (stopNow stopDuring : Nat → Bool) (u : Nat → ℚ) :
    ∀ (ts : List Task) (i : Nat) (s : CrawlState) (k : Nat),
      Event.accepted k ∈
        (crawlLoop cfg seen maxItems n ext writes stopNow stopDuring u i ts s).2 →
      ∀ r ∈ writes k,
        r ∈ (crawlLoop cfg seen maxItems n ext writes stopNow stopDuring u i ts s).1.sink := by
  intro ts
  induction ts with
  | nil => intro i s k hk; rw [crawlLoop_nil] at hk; cases hk
  | cons t rest ih =>
    intro i s k hk r hr
    rw [crawlLoop_cons] at hk ⊢
    by_cases hb : (crawlStep cfg seen maxItems n (ext i) (writes i) (stopNow i)
        (stopDuring i) (u i) i t s).brk = true
    · rw [if_pos hb] at hk ⊢
      have hki : k = i := by
        simpa [Event.idx] using crawlStep_idx cfg seen maxItems n (ext i)
          (writes i) (stopNow i) (stopDuring i) (u i) i t s _ hk
      subst hki
      exact crawlStep_accepted_sink cfg seen maxItems n (ext k) (writes k)
        (stopNow k) (stopDuring k) (u k) k k t s hk r hr
    · rw [if_neg hb] at hk ⊢
      rcases List.mem_append.mp hk with hk1 | hk2
      · have hki : k = i := by
          simpa [Event.idx] using crawlStep_idx cfg seen maxItems n (ext i)
            (writes i) (stopNow i) (stopDuring i) (u i) i t s _ hk1
        subst hki
        exact crawlLoop_sink_mono cfg seen maxItems n ext writes stopNow
          stopDuring u rest (k + 1) _ r
          (crawlStep_accepted_sink cfg seen maxItems n (ext k) (writes k)
            (stopNow k) (stopDuring k) (u k) k k t s hk1 r hr)
      · exact ih (i + 1) _ k hk2 r hr

theorem crawlLoop_paced (cfg : CrawlCfg) (seen : List (List String))
    (maxItems : Option Nat) (n : Nat) (ext : Nat → Option Rec)
    (writes : Nat → List Rec) (stopNow stopDuring : Nat → Bool) (u : Nat → ℚ) :
    ∀ (ts : List Task) (i : Nat) (s : CrawlState) (k : Nat) (d : ℚ),
      Event.paced k d ∈
        (crawlLoop cfg seen maxItems n ext writes stopNow stopDuring u i ts s).2 →
      k < n - 1 ∧ d = uniformDraw cfg.minDelay cfg.maxDelay (u k) ∧
        Event.attempt k ∈
          (crawlLoop cfg seen maxItems n ext writes stopNow stopDuring u i ts s).2 := by
  intro ts
  induction ts with
  | nil => intro i s k d hk; rw [crawlLoop_nil] at hk; cases hk
  | cons t rest ih =>
    intro i s k d hk
    rw [crawlLoop_cons] at hk ⊢
    by_cases hb : (crawlStep cfg seen maxItems n (ext i) (writes i) (stopNow i)
        (stopDuring i) (u i) i t s).brk = true
    · rw [if_pos hb] at hk ⊢
      rcases crawlStep_paced cfg seen maxItems n (ext i) (writes i) (stopNow i)
        (stopDuring i) (u i) i k d t s hk with ⟨hki, h1, _, hd, _, hatt⟩
      subst hki
      exact ⟨h1, hd, hatt⟩
    · rw [if_neg hb] at hk ⊢
      rcases List.mem_append.mp hk with hk1 | hk2
      · rcases crawlStep_paced cfg seen maxItems n (ext i) (writes i) (stopNow i)
          (stopDuring i) (u i) i k d t s hk1 with ⟨hki, h1, _, hd, _, hatt⟩
        subst hki
        exact ⟨h1, hd, List.mem_append_left _ hatt⟩
      · rcases ih (i + 1) _ k d hk2 with ⟨h1, hd, hatt⟩
        exact ⟨h1, hd, List.mem_append_right _ hatt⟩

/-- `random.uniform(a, b)` lies in `[a, b]` when the unit draw lies in
`[0, 1]`. -/
theorem uniformDraw_bounds (a b v : ℚ) (hab : a ≤ b) (h0 : 0 ≤ v)
    (h1 : v ≤ 1) : a ≤ uniformDraw a b v ∧ uniformDraw a b v ≤ b := by
  unfold uniformDraw
  constructor
  · nlinarith
  · nlinarith

end Crawler

namespace Crawler

/-! ### Concrete scenario data (from `config.py` and small runs) -/

/-- `config.py:9`. -/
def MIN_DELAY_SECONDS : ℚ := 10

/-- `config.py:10`. -/
def MAX_DELAY_SECONDS : ℚ := 30

/-- A JSON-sink crawler configuration with key field `name` and the pacing
bounds of `config.py`. -/
def cfgJson : CrawlCfg :=
  ⟨["name"], true, MIN_DELAY_SECONDS, MAX_DELAY_SECONDS⟩

/-- Fresh run state: nothing loaded, nothing written, session open. -/
def initState : CrawlState := ⟨[], [], [], [], true⟩

/-- A task dict with a `link` and a `name`. -/
def mkTask (url nm : String) : Task := ⟨[("link", url), ("name", nm)], ""⟩

def rec0 : Rec := [("offer", "r0")]
def rec1 : Rec := [("offer", "r1")]
def rec2 : Rec := [("offer", "r2")]

/-- Five available tasks with distinct links. -/
def tasksFive : List Task :=
  [mkTask "u0" "t0", mkTask "u1" "t1", mkTask "u2" "t2",
    mkTask "u3" "t3", mkTask "u4" "t4"]

/-- Extraction succeeding on every task. -/
def extFive : Nat → Option Rec :=
  fun i => if i = 0 then some rec0 else if i = 1 then some rec1 else some rec2

/-- Per-item persistence: `process_item` writes exactly the record it
returns. -/
def wrFive : Nat → List Rec := fun i => (extFive i).toList

def noStopF : Nat → Bool := fun _ => false

def allStopDuring : Nat → Bool := fun _ => true

def uZero : Nat → ℚ := fun _ => 0

/-- Two tasks for the shutdown-mid-pacing scenarios. -/
def tasksTwo : List Task := [mkTask "u0" "t0", mkTask "u1" "t1"]

def extConst : Nat → Option Rec := fun _ => some rec0

def wrConst : Nat → List Rec := fun _ => [rec0]

def wrNone : Nat → List Rec := fun _ => []

/-- A state whose processed-URLs cache already holds `u0`. -/
def stateWithU0 : CrawlState := ⟨[], ["u0"], [], [], true⟩

end Crawler

namespace Crawler

/-! ### Claim C1: shutdown during the pacing wait -/

/-- C1, counterexample.  The claim says every Record accepted before the
shutdown is present in the durable sink after the run terminates because "the
Store flush runs on every terminal path".  In the code the `finally` block
flushes nothing (`save_data` is never called), so for a crawler whose
`process_item` does not itself write the sink (e.g.
`angel_travel_detailed_crawler.py`, which only returns the record), a record
accepted just before a shutdown raised in the pacing wait is in `all_items`
but in no sink when the run terminates. -/
theorem shutdown_midwait_counterexample :
    crawlRun cfgJson [] none tasksTwo extConst wrNone noStopF allStopDuring
        uZero initState =
      (⟨[rec0], ["u0"], [("u0", "t0")], [], true⟩,
        [Event.ledgerAdd 0 "u0" "t0", Event.attempt 0, Event.accepted 0,
          Event.paceInterrupted 0]) ∧
    Event.accepted 0 ∈ (crawlRun cfgJson [] none tasksTwo extConst wrNone
      noStopF allStopDuring uZero initState).2 ∧
    (finalizeRun (crawlRun cfgJson [] none tasksTwo extConst wrNone noStopF
      allStopDuring uZero initState).1).sink = [] := by
  refine ⟨rfl, by decide, rfl⟩

/-- C1, amended: when shutdown is requested during the pacing wait, no later
task is started (every event after the interrupt's iteration is absent), and
— because persistence is per-item, inside `process_item`, not a flush in the
`finally` block — every record that `process_item` both returned and wrote is
in the durable sink when the run terminates; the `finally` block itself leaves
the sink untouched. -/
theorem shutdown_midwait_flush (cfg : CrawlCfg) (seen : List (List String))
    (maxItems : Option Nat) (tasks : List Task) (ext : Nat → Option Rec)
    (writes : Nat → List Rec) (stopNow stopDuring : Nat → Bool) (u : Nat → ℚ)
    (s0 : CrawlState)
    (H : ∀ i r, ext i = some r → r ∈ writes i) :
    (∀ k, Event.paceInterrupted k ∈
        (crawlRun cfg seen maxItems tasks ext writes stopNow stopDuring u s0).2 →
      ∀ j, Event.attempt j ∈
          (crawlRun cfg seen maxItems tasks ext writes stopNow stopDuring u s0).2 →
        j ≤ k) ∧
    (∀ k r, Event.accepted k ∈
        (crawlRun cfg seen maxItems tasks ext writes stopNow stopDuring u s0).2 →
      ext k = some r →
      r ∈ (finalizeRun
        (crawlRun cfg seen maxItems tasks ext writes stopNow stopDuring u s0).1).sink) ∧
    (finalizeRun
        (crawlRun cfg seen maxItems tasks ext writes stopNow stopDuring u s0).1).sink =
      (crawlRun cfg seen maxItems tasks ext writes stopNow stopDuring u s0).1.sink := by
  refine ⟨?_, ?_, rfl⟩
  · intro k hk j hj
    have := crawlLoop_le_of_interrupt cfg seen maxItems tasks.length ext writes
      stopNow stopDuring u tasks 0 s0 k hk (Event.attempt j) hj
    simpa [Event.idx] using this
  · intro k r hk hr
    exact crawlLoop_accepted_sink cfg seen maxItems tasks.length ext writes
      stopNow stopDuring u tasks 0 s0 k hk r (H k r hr)

/-- C1, witness: the amended theorem applied to the concrete
shutdown-mid-pacing run in which `process_item` persists what it returns. -/
theorem shutdown_midwait_flush_witness :
    (0 : Nat) ≤ 0 ∧
    rec0 ∈ (finalizeRun (crawlRun cfgJson [] none tasksTwo extConst wrConst
      noStopF allStopDuring uZero initState).1).sink := by
  have h := shutdown_midwait_flush cfgJson [] none tasksTwo extConst wrConst
    noStopF allStopDuring uZero initState
    (fun i r hir => by
      injection hir with h'
      rw [← h']
      exact List.mem_singleton.mpr rfl)
  exact ⟨h.1 0 (by decide) 0 (by decide), h.2.1 0 rec0 (by decide) rfl⟩

/-! ### Claim C6: item-cap enforcement -/

/-- C6: with 5 available tasks and item cap 2, the run persists exactly the
two records of the first two tasks and breaks on the cap before the 3rd task
is attempted; and (second conjunct) an iteration that skips a task as a
duplicate — processed-URLs-cache hit or `is_duplicate` Fingerprint match —
leaves the whole state, in particular `all_items` (the cap counter) and the
sink, unchanged, so skips never count against the cap. -/
theorem item_cap_scenario :
    (crawlRun cfgJson [] (some 2) tasksFive extFive wrFive noStopF noStopF
        uZero initState =
      (⟨[rec0, rec1], ["u0", "u1"], [("u0", "t0"), ("u1", "t1")],
          [rec0, rec1], true⟩,
        [Event.ledgerAdd 0 "u0" "t0", Event.attempt 0, Event.accepted 0,
          Event.paced 0 (uniformDraw MIN_DELAY_SECONDS MAX_DELAY_SECONDS 0),
          Event.ledgerAdd 1 "u1" "t1", Event.attempt 1, Event.accepted 1,
          Event.paced 1 (uniformDraw MIN_DELAY_SECONDS MAX_DELAY_SECONDS 0),
          Event.capBreak 2]) ∧
      (crawlRun cfgJson [] (some 2) tasksFive extFive wrFive noStopF noStopF
        uZero initState).1.sink = [rec0, rec1] ∧
      Event.attempt 2 ∉ (crawlRun cfgJson [] (some 2) tasksFive extFive wrFive
        noStopF noStopF uZero initState).2) ∧
    (∀ (cfg : CrawlCfg) (seen : List (List String)) (maxItems : Option Nat)
        (n : Nat) (ext : Option Rec) (writes : List Rec)
        (stopNow stopDuring : Bool) (u : ℚ) (i : Nat) (t : Task)
        (s : CrawlState),
      ((∃ url, Event.skipCache i url ∈
          (crawlStep cfg seen maxItems n ext writes stopNow stopDuring u i t s).events) ∨
        Event.skipDup i ∈
          (crawlStep cfg seen maxItems n ext writes stopNow stopDuring u i t s).events) →
      (crawlStep cfg seen maxItems n ext writes stopNow stopDuring u i t s).state = s ∧
      (crawlStep cfg seen maxItems n ext writes stopNow stopDuring u i t s).brk = false) := by
  constructor
  · exact ⟨rfl, rfl, by decide⟩
  · intro cfg seen maxItems n ext writes stopNow stopDuring u i t s hskip
    rcases crawlStep_shape cfg seen maxItems n ext writes stopNow stopDuring u i t s with
      he | he | he | he | ⟨hc, hcase⟩
    · rw [he] at hskip ⊢
      rcases hskip with ⟨url, h⟩ | h <;> simp at h
    · rw [he] at hskip ⊢
      rcases hskip with ⟨url, h⟩ | h <;> simp at h
    · rw [he]
      exact ⟨rfl, rfl⟩
    · rw [he]
      exact ⟨rfl, rfl⟩
    · rcases hcase with ⟨h1, he⟩ | ⟨h1, h2, he⟩ | ⟨h1, h2, he⟩ <;> rw [he] at hskip <;>
        exfalso
      · rcases hskip with ⟨url, h⟩ | h
        · exact procEvents_no_skipCache ext i i url (itemUrl t) (tempOfferName t) h
        · exact procEvents_no_skipDup ext i i (itemUrl t) (tempOfferName t) h
      · rcases hskip with ⟨url, h⟩ | h
        · rcases List.mem_append.mp h with h' | h'
          · exact procEvents_no_skipCache ext i i url (itemUrl t) (tempOfferName t) h'
          · simp at h'
        · rcases List.mem_append.mp h with h' | h'
          · exact procEvents_no_skipDup ext i i (itemUrl t) (tempOfferName t) h'
          · simp at h'
      · rcases hskip with ⟨url, h⟩ | h
        · rcases List.mem_append.mp h with h' | h'
          · exact procEvents_no_skipCache ext i i url (itemUrl t) (tempOfferName t) h'
          · simp at h'
        · rcases List.mem_append.mp h with h' | h'
          · exact procEvents_no_skipDup ext i i (itemUrl t) (tempOfferName t) h'
          · simp at h'

/-- C6, witness: the skip-neutrality conjunct applied to a concrete iteration
whose task URL is already in the processed-URLs cache. -/
theorem item_cap_scenario_witness :
    (crawlStep cfgJson [] none 1 (some rec0) [] false false 0 0
      (mkTask "u0" "t0") stateWithU0).state = stateWithU0 ∧
    (crawlStep cfgJson [] none 1 (some rec0) [] false false 0 0
      (mkTask "u0" "t0") stateWithU0).brk = false :=
  item_cap_scenario.2 cfgJson [] none 1 (some rec0) [] false false 0 0
    (mkTask "u0" "t0") stateWithU0 (Or.inl ⟨"u0", by decide⟩)

/-! ### Claim C7: ledger entry before extraction, idempotent append -/

theorem procEvents_decomp (ext : Option Rec) (i : Nat) (url nm : String) :
    ∃ tail, procEvents ext i url nm =
      Event.ledgerAdd i url nm :: Event.attempt i :: tail := by
  cases ext
  · exact ⟨[], rfl⟩
  · exact ⟨[Event.accepted i], rfl⟩

/-- C7: whenever a task is not skipped (its extraction is attempted), the
iteration first appends the `(identifier, label)` pair to the ledger file —
the events begin ledger-append-then-attempt — the new ledger is the old one
with exactly that one row, and the URL enters the cache; and appending an
already-cached identifier a second time is a no-op (no second row, no
error). -/
theorem ledger_before_extract (cfg : CrawlCfg) (seen : List (List String))
    (maxItems : Option Nat) (n : Nat) (ext : Option Rec) (writes : List Rec)
    (stopNow stopDuring : Bool) (u : ℚ) (i : Nat) (t : Task) (s : CrawlState)
    (h : Event.attempt i ∈
      (crawlStep cfg seen maxItems n ext writes stopNow stopDuring u i t s).events) :
    itemUrl t ∉ s.cache ∧
    (∃ rest,
      (crawlStep cfg seen maxItems n ext writes stopNow stopDuring u i t s).events =
        Event.ledgerAdd i (itemUrl t) (tempOfferName t) ::
          Event.attempt i :: rest) ∧
    (crawlStep cfg seen maxItems n ext writes stopNow stopDuring u i t s).state.ledger =
      s.ledger ++ [(itemUrl t, tempOfferName t)] ∧
    itemUrl t ∈
      (crawlStep cfg seen maxItems n ext writes stopNow stopDuring u i t s).state.cache ∧
    (∀ (st : CrawlState) (url nm nm' : String),
      addProcessedUrl (addProcessedUrl st url nm) url nm' =
        addProcessedUrl st url nm) := by
  obtain ⟨tail, htail⟩ := procEvents_decomp ext i (itemUrl t) (tempOfferName t)
  have hledger : (procState cfg ext writes s (itemUrl t) (tempOfferName t)).ledger =
      (addProcessedUrl s (itemUrl t) (tempOfferName t)).ledger :=
    procState_ledger cfg ext writes s (itemUrl t) (tempOfferName t)
  have hcache : (procState cfg ext writes s (itemUrl t) (tempOfferName t)).cache =
      (addProcessedUrl s (itemUrl t) (tempOfferName t)).cache :=
    procState_cache cfg ext writes s (itemUrl t) (tempOfferName t)
  rcases crawlStep_shape cfg seen maxItems n ext writes stopNow stopDuring u i t s with
    he | he | he | he | ⟨hc, hcase⟩
  · rw [he] at h; simp at h
  · rw [he] at h; simp at h
  · rw [he] at h; simp at h
  · rw [he] at h; simp at h
  · have hled : (addProcessedUrl s (itemUrl t) (tempOfferName t)).ledger =
        s.ledger ++ [(itemUrl t, tempOfferName t)] :=
      addProcessedUrl_ledger_of_not_cached s (itemUrl t) (tempOfferName t) hc
    have hcac : (addProcessedUrl s (itemUrl t) (tempOfferName t)).cache =
        s.cache ++ [itemUrl t] :=
      addProcessedUrl_cache_of_not_cached s (itemUrl t) (tempOfferName t) hc
    have hmem : itemUrl t ∈ s.cache ++ [itemUrl t] :=
      List.mem_append_right _ (List.mem_singleton.mpr rfl)
    rcases hcase with ⟨h1, he⟩ | ⟨h1, h2, he⟩ | ⟨h1, h2, he⟩ <;> rw [he] <;>
      refine ⟨hc, ?_, ?_, ?_, fun st url nm nm' => addProcessedUrl_idem st url nm nm'⟩
    · exact ⟨tail, htail⟩
    · show (procState cfg ext writes s (itemUrl t) (tempOfferName t)).ledger = _
      rw [hledger, hled]
    · show itemUrl t ∈ (procState cfg ext writes s (itemUrl t) (tempOfferName t)).cache
      rw [hcache, hcac]
      exact hmem
    · refine ⟨tail ++ [Event.paceInterrupted i], ?_⟩
      show procEvents ext i (itemUrl t) (tempOfferName t) ++ [Event.paceInterrupted i] = _
      rw [htail]
      rfl
    · show (procState cfg ext writes s (itemUrl t) (tempOfferName t)).ledger = _
      rw [hledger, hled]
    · show itemUrl t ∈ (procState cfg ext writes s (itemUrl t) (tempOfferName t)).cache
      rw [hcache, hcac]
      exact hmem
    · refine ⟨tail ++
        [Event.paced i (uniformDraw cfg.minDelay cfg.maxDelay u)], ?_⟩
      show procEvents ext i (itemUrl t) (tempOfferName t) ++ _ = _
      rw [htail]
      rfl
    · show (procState cfg ext writes s (itemUrl t) (tempOfferName t)).ledger = _
      rw [hledger, hled]
    · show itemUrl t ∈ (procState cfg ext writes s (itemUrl t) (tempOfferName t)).cache
      rw [hcache, hcac]
      exact hmem

/-- C7, witness: the theorem applied to a concrete non-skipped iteration. -/
theorem ledger_before_extract_witness :
    "u0" ∉ initState.cache ∧
    (∃ rest, (crawlStep cfgJson [] none 1 (some rec0) [] false false 0 0
        (mkTask "u0" "t0") initState).events =
      Event.ledgerAdd 0 "u0" "t0" :: Event.attempt 0 :: rest) ∧
    (crawlStep cfgJson [] none 1 (some rec0) [] false false 0 0
      (mkTask "u0" "t0") initState).state.ledger =
        initState.ledger ++ [("u0", "t0")] ∧
    "u0" ∈ (crawlStep cfgJson [] none 1 (some rec0) [] false false 0 0
      (mkTask "u0" "t0") initState).state.cache ∧
    (∀ (st : CrawlState) (url nm nm' : String),
      addProcessedUrl (addProcessedUrl st url nm) url nm' =
        addProcessedUrl st url nm) :=
  ledger_before_extract cfgJson [] none 1 (some rec0) [] false false 0 0
    (mkTask "u0" "t0") initState (by decide)

/-! ### Claim C8: pacing bounds, placement and interruptibility -/

/-- C8: (i) every completed pacing wait in a run has duration
`uniform(minDelay, maxDelay)`, within `[minDelay, maxDelay]` for unit draws in
`[0, 1]`; it belongs to an iteration `k < n - 1` (never after the last task)
whose extraction was attempted; (ii) a `paced` event only ever closes its
iteration's event list, directly after the task's processing — so no wait
precedes the first task; (iii) if the stop event fires during the wait, the
iteration ends with the cancellation event instead of a completed `paced`
wait and breaks the loop. -/
theorem pacing_bounds_interrupt (cfg : CrawlCfg) (seen : List (List String))
    (maxItems : Option Nat) (tasks : List Task) (ext : Nat → Option Rec)
    (writes : Nat → List Rec) (stopNow stopDuring : Nat → Bool) (u : Nat → ℚ)
    (s0 : CrawlState)
    (hab : cfg.minDelay ≤ cfg.maxDelay) (hu : ∀ k, 0 ≤ u k ∧ u k ≤ 1) :
    (∀ k d, Event.paced k d ∈
        (crawlRun cfg seen maxItems tasks ext writes stopNow stopDuring u s0).2 →
      cfg.minDelay ≤ d ∧ d ≤ cfg.maxDelay ∧ k < tasks.length - 1 ∧
      Event.attempt k ∈
        (crawlRun cfg seen maxItems tasks ext writes stopNow stopDuring u s0).2) ∧
    (∀ (i : Nat) (t : Task) (s : CrawlState) (k : Nat) (d : ℚ),
      Event.paced k d ∈
        (crawlStep cfg seen maxItems tasks.length (ext i) (writes i)
          (stopNow i) (stopDuring i) (u i) i t s).events →
      (crawlStep cfg seen maxItems tasks.length (ext i) (writes i) (stopNow i)
          (stopDuring i) (u i) i t s).events =
        procEvents (ext i) i (itemUrl t) (tempOfferName t) ++ [Event.paced k d]) ∧
    (∀ (i : Nat) (t : Task) (s : CrawlState), i < tasks.length - 1 →
      stopDuring i = true →
      Event.attempt i ∈
        (crawlStep cfg seen maxItems tasks.length (ext i) (writes i)
          (stopNow i) (stopDuring i) (u i) i t s).events →
      (crawlStep cfg seen maxItems tasks.length (ext i) (writes i) (stopNow i)
        (stopDuring i) (u i) i t s).brk = true ∧
      (crawlStep cfg seen maxItems tasks.length (ext i) (writes i) (stopNow i)
          (stopDuring i) (u i) i t s).events =
        procEvents (ext i) i (itemUrl t) (tempOfferName t) ++
          [Event.paceInterrupted i] ∧
      ∀ (k : Nat) (d : ℚ), Event.paced k d ∉
        (crawlStep cfg seen maxItems tasks.length (ext i) (writes i)
          (stopNow i) (stopDuring i) (u i) i t s).events) := by
  refine ⟨?_, ?_, ?_⟩
  · intro k d hk
    rcases crawlLoop_paced cfg seen maxItems tasks.length ext writes stopNow
      stopDuring u tasks 0 s0 k d hk with ⟨hlt, hd, hatt⟩
    rcases uniformDraw_bounds cfg.minDelay cfg.maxDelay (u k) hab (hu k).1
      (hu k).2 with ⟨hlo, hhi⟩
    rw [hd]
    exact ⟨hlo, hhi, hlt, hatt⟩
  · intro i t s k d hk
    rcases crawlStep_paced cfg seen maxItems tasks.length (ext i) (writes i)
      (stopNow i) (stopDuring i) (u i) i k d t s hk with ⟨_, _, _, _, hev, _⟩
    exact hev
  · intro i t s hlt hsd hatt
    rw [hsd] at hatt ⊢
    exact crawlStep_interrupt_shape cfg seen maxItems tasks.length (ext i)
      (writes i) (stopNow i) (u i) i t s hlt hatt

/-- C8, witness: the bounds conjunct applied to the first completed pacing
wait of a concrete run. -/
theorem pacing_bounds_interrupt_witness :
    cfgJson.minDelay ≤ uniformDraw MIN_DELAY_SECONDS MAX_DELAY_SECONDS 0 ∧
    uniformDraw MIN_DELAY_SECONDS MAX_DELAY_SECONDS 0 ≤ cfgJson.maxDelay ∧
    0 < tasksFive.length - 1 ∧
    Event.attempt 0 ∈ (crawlRun cfgJson [] (some 2) tasksFive extFive wrFive
      noStopF noStopF uZero initState).2 := by
  have h := pacing_bounds_interrupt cfgJson [] (some 2) tasksFive extFive
    wrFive noStopF noStopF uZero initState
    (by norm_num [cfgJson, MIN_DELAY_SECONDS, MAX_DELAY_SECONDS])
    (fun k => by norm_num [uZero])
  have hmem : Event.paced 0 (uniformDraw MIN_DELAY_SECONDS MAX_DELAY_SECONDS 0) ∈
      (crawlRun cfgJson [] (some 2) tasksFive extFive wrFive noStopF noStopF
        uZero initState).2 := by
    have htr : (crawlRun cfgJson [] (some 2) tasksFive extFive wrFive noStopF
        noStopF uZero initState).2 =
      [Event.ledgerAdd 0 "u0" "t0", Event.attempt 0, Event.accepted 0,
        Event.paced 0 (uniformDraw MIN_DELAY_SECONDS MAX_DELAY_SECONDS 0),
        Event.ledgerAdd 1 "u1" "t1", Event.attempt 1, Event.accepted 1,
        Event.paced 1 (uniformDraw MIN_DELAY_SECONDS MAX_DELAY_SECONDS 0),
        Event.capBreak 2] := rfl
    rw [htr]
    exact List.mem_cons_of_mem _ (List.mem_cons_of_mem _
      (List.mem_cons_of_mem _ (List.mem_cons_self _ _)))
  exact h.1 0 (uniformDraw MIN_DELAY_SECONDS MAX_DELAY_SECONDS 0) hmem

end Crawler
